import Mathlib

/-!
Verification of the civitai-downloader repository (src/download.py).

The Python source is shallowly embedded: each relevant Python function is
translated into an executable Lean definition operating on `String` /
`List Char` (ASCII-level model of Python `str`), `Option` for Python `None`,
and `Except` for Python exceptions.  Network and filesystem effects are
modelled by explicit environment functions and by returning the write that
would have been performed.
-/

namespace Civitai

/-! ## Python string primitives -/

/-- Python `needle in hay` (substring containment) on character lists. -/
def containsSubChars (needle : List Char) : List Char → Bool
  | [] => needle.isEmpty
  | c :: t => needle.isPrefixOf (c :: t) || containsSubChars needle t

/-- Python `needle in hay` for strings. -/
def containsSub (needle hay : String) : Bool :=
  containsSubChars needle.data hay.data

/-- Decimal digits of `n`, most significant first, mirroring Python
`str(int)`; `fuel` bounds the recursion (any `fuel > n` is enough). -/
def natDigitsAux : Nat → Nat → List Char
  | 0, _ => []
  | fuel + 1, n =>
    if n < 10 then [Nat.digitChar n]
    else natDigitsAux fuel (n / 10) ++ [Nat.digitChar (n % 10)]

/-- Python `str(n)` for a natural number. -/
def natRepr (n : Nat) : String :=
  String.mk (natDigitsAux (n + 1) n)

/-- Python `str(x)` for an optional natural number (`str(None) = "None"`). -/
def pyStrOptNat : Option Nat → String
  | none => "None"
  | some n => natRepr n

/-- Python f-string interpolation of an optional string
(`f"{None}"` gives `"None"`). -/
def pyStrOptStr : Option String → String
  | none => "None"
  | some s => s

/-- Python `s.startswith(p)`. -/
def pyStartsWith (p s : String) : Bool :=
  p.data.isPrefixOf s.data

/-- Python `s.lower()` at the ASCII level. -/
def pyLower (s : String) : String :=
  String.mk (s.data.map Char.toLower)

/-- Python `s.split(sep)` for a nonempty separator, on character lists;
`fuel` bounds the recursion (the length of the list is enough). -/
def splitFuel (sep : List Char) : Nat → List Char → List (List Char)
  | _, [] => [[]]
  | 0, l => [l]
  | fuel + 1, c :: t =>
    if sep.isPrefixOf (c :: t) then
      [] :: splitFuel sep fuel ((c :: t).drop sep.length)
    else
      match splitFuel sep fuel t with
      | [] => [[c]]
      | h :: r => (c :: h) :: r

/-- Python `s.split(sep)` for strings (the source never splits on an empty
separator). -/
def pySplit (s sep : String) : List String :=
  (splitFuel sep.data s.data.length s.data).map String.mk

/-! ## AIR parsing (`parse_air`, src/download.py lines 155-175)

The Python code matches the regular expression

`^(?:urn:)?(?:air:)?(?P<ecosystem>[^:]+):(?P<type>[^:]+):(?P<source>[^:]+):(?P<id>[^@\.]+)(?:@(?P<version>[^\.]+))?(?:\.(?P<format>\w+))?$`

The embedding reproduces the backtracking semantics of the optional
prefixes (alternatives tried in the order both/urn-only/air-only/none)
followed by the deterministic greedy core (each `[^X]+` class stops exactly
at the first excluded character, so no further backtracking can succeed).
`\w` is modelled at the ASCII level as alphanumeric or underscore. -/

structure AirDict where
  ecosystem : String
  type : String
  source : String
  id : String
  version : Option String
  format : Option String
deriving Repr, DecidableEq

/-- ASCII model of the regex class `\w`. -/
def isWordChar (c : Char) : Bool := c.isAlphanum || c == '_'

/-- Consume a nonempty run of non-colon characters followed by a colon,
i.e. the regex fragment `[^:]+:`. -/
def splitColon (l : List Char) : Option (List Char × List Char) :=
  match l.span (fun c => !(c == ':')) with
  | (f, ':' :: rest) => if f.isEmpty then none else some (f, rest)
  | _ => none

/-- The core of the AIR regex after optional prefixes have been stripped:
`[^:]+:[^:]+:[^:]+:[^@\.]+(?:@[^\.]+)?(?:\.\w+)?$`. -/
def parseAirCore (l : List Char) : Option AirDict := do
  let (eco, r1) ← splitColon l
  let (ty, r2) ← splitColon r1
  let (src, r3) ← splitColon r2
  let (idPart, r4) := r3.span (fun c => !(c == '@') && !(c == '.'))
  if idPart.isEmpty then none
  else
    match r4 with
    | [] => some ⟨String.mk eco, String.mk ty, String.mk src, String.mk idPart, none, none⟩
    | '@' :: r5 =>
      let (ver, r6) := r5.span (fun c => !(c == '.'))
      if ver.isEmpty then none
      else
        match r6 with
        | [] => some ⟨String.mk eco, String.mk ty, String.mk src, String.mk idPart,
                      some (String.mk ver), none⟩
        | '.' :: r7 =>
          if !r7.isEmpty && r7.all isWordChar then
            some ⟨String.mk eco, String.mk ty, String.mk src, String.mk idPart,
                  some (String.mk ver), some (String.mk r7)⟩
          else none
        | _ => none
    | '.' :: r5 =>
      if !r5.isEmpty && r5.all isWordChar then
        some ⟨String.mk eco, String.mk ty, String.mk src, String.mk idPart,
              none, some (String.mk r5)⟩
      else none
    | _ => none

/-- The remainders obtained by stripping the optional `urn:` / `air:`
prefixes, in the order the regex engine tries them. -/
def airAttempts (l : List Char) : List (List Char) :=
  (["urn:air:", "urn:", "air:", ""].map String.data).filterMap
    (fun p => if p.isPrefixOf l then some (l.drop p.length) else none)

/-- Full match of the AIR regex against a character list. -/
def parseAirChars (l : List Char) : Option AirDict :=
  (airAttempts l).findSome? parseAirCore

/-- Embedding of `parse_air` (src/download.py lines 155-175); the `ValueError`
raised on a failed match becomes `Except.error`. -/
def parse_air (air_string : String) : Except String AirDict :=
  match parseAirChars air_string.data with
  | some d => .ok d
  | none => .error ("Invalid AIR format: " ++ air_string)

example :
    parse_air "urn:air:flux1:lora:civitai:667004@746484" =
      .ok ⟨"flux1", "lora", "civitai", "667004", some "746484", none⟩ := rfl

example : parse_air "urn:air:a:b" = .ok ⟨"urn", "air", "a", "b", none, none⟩ := rfl

example : parse_air "nocolons" = .error "Invalid AIR format: nocolons" := rfl

/-! ## URL parsing (`parse_url` and `extract_options`, src/download.py lines 178-216)

`urllib.parse.urlparse` and `urllib.parse.parse_qs` are standard-library
collaborators; they are embedded at the ASCII level below (fragment split,
scheme recognition and lowercasing, `//netloc` extraction, query split on
`&`, first-`=` key/value split with blank values dropped, percent and plus
decoding). -/

/-- Characters allowed in a URL scheme by `urllib.parse`. -/
def schemeChar (c : Char) : Bool :=
  c.isAlphanum || c == '+' || c == '-' || c == '.'

structure UrlParts where
  scheme : String
  netloc : String
  path : String
  query : String
deriving Repr, DecidableEq

/-- ASCII model of `urllib.parse.urlparse` restricted to the four fields the
source reads (`scheme`, `netloc`, `path`, `query`). -/
def urlparse (url : String) : UrlParts :=
  let noFrag := (url.data.span (fun c => !(c == '#'))).1
  let schemeRest : List Char × List Char :=
    match noFrag.span (fun c => !(c == ':')) with
    | (s, ':' :: r) => if !s.isEmpty && s.all schemeChar then (s.map Char.toLower, r) else ([], noFrag)
    | _ => ([], noFrag)
  let netlocRest : List Char × List Char :=
    if ['/', '/'].isPrefixOf schemeRest.2 then
      (schemeRest.2.drop 2).span (fun c => !(c == '/') && !(c == '?'))
    else ([], schemeRest.2)
  let pathRest := netlocRest.2.span (fun c => !(c == '?'))
  let query : List Char := match pathRest.2 with | '?' :: q => q | _ => []
  ⟨String.mk schemeRest.1, String.mk netlocRest.1, String.mk pathRest.1, String.mk query⟩

/-- Value of a hexadecimal digit character. -/
def isHexChar (c : Char) : Bool :=
  (48 ≤ c.toNat && c.toNat ≤ 57) || (97 ≤ c.toNat && c.toNat ≤ 102) ||
    (65 ≤ c.toNat && c.toNat ≤ 70)

def hexVal (c : Char) : Nat :=
  if c.toNat ≤ 57 then c.toNat - 48 else if c.toNat ≤ 70 then c.toNat - 55 else c.toNat - 87

/-- ASCII model of `urllib.parse.unquote`: decode `%XX` escapes, leaving
invalid escapes untouched (multi-byte UTF-8 sequences are out of model). -/
def unquoteChars : List Char → List Char
  | '%' :: a :: b :: t =>
    if isHexChar a && isHexChar b then Char.ofNat (16 * hexVal a + hexVal b) :: unquoteChars t
    else '%' :: unquoteChars (a :: b :: t)
  | c :: t => c :: unquoteChars t
  | [] => []

def pyUnquote (s : String) : String := String.mk (unquoteChars s.data)

/-- `urllib.parse.unquote_plus`: `+` becomes a space, then percent-decode. -/
def pyUnquotePlus (s : String) : String :=
  String.mk (unquoteChars (s.data.map (fun c => if c == '+' then ' ' else c)))

/-- One `key=value` segment of a query string, as `parse_qsl` treats it:
segments without `=` and segments with a blank value are dropped. -/
def parseQsPair (seg : String) : Option (String × String) :=
  match seg.data.span (fun c => !(c == '=')) with
  | (n, '=' :: v) =>
    if v.isEmpty then none
    else some (pyUnquotePlus (String.mk n), pyUnquotePlus (String.mk v))
  | _ => none

/-- ASCII model of `urllib.parse.parse_qsl` with default options. -/
def parse_qsl (qs : String) : List (String × String) :=
  (pySplit qs "&").filterMap parseQsPair

/-- Append `v` to the entry of `k` in an insertion-ordered dictionary,
creating the entry at the end if absent (Python dict semantics). -/
def dictAppend (d : List (String × List String)) (k : String) (v : String) :
    List (String × List String) :=
  match d with
  | [] => [(k, [v])]
  | (k0, vs) :: t => if k0 == k then (k0, vs ++ [v]) :: t else (k0, vs) :: dictAppend t k v

/-- ASCII model of `urllib.parse.parse_qs`: group the `parse_qsl` pairs into
an insertion-ordered multi-dictionary. -/
def parse_qs (qs : String) : List (String × List String) :=
  (parse_qsl qs).foldl (fun d kv => dictAppend d kv.1 kv.2) []

/-- Embedding of `extract_options` (src/download.py lines 215-216):
`q.get(key, [None])[0]`. -/
def extract_options (q : List (String × List String)) (key : String) : Option String :=
  match q.find? (fun kv => kv.1 == key) with
  | some kv => kv.2.head?
  | none => none

/-- Python `str.isdigit` at the ASCII level: nonempty and all digits. -/
def pyIsDigit (s : String) : Bool :=
  !s.isEmpty && s.data.all Char.isDigit

structure UrlDict where
  version : String
  type : Option String
  format : Option String
  size : Option String
  fp : Option String
  raw_url : String
deriving Repr, DecidableEq

/-- Embedding of `parse_url` (src/download.py lines 178-212); each
`raise ValueError` becomes `Except.error` with the message of the source. -/
def parse_url (url : String) : Except String UrlDict :=
  let parsed := urlparse url
  if !(pyStartsWith "http" parsed.scheme) || !(containsSub "civitai.com" parsed.netloc) then
    .error ("Invalid domain in URL: " ++ url)
  else if !(pyStartsWith "/api/download/models/" parsed.path) then
    .error ("Invalid download path in URL: " ++ url)
  else
    match (pySplit parsed.path "/api/download/models/").get? 1 with
    | none => .error ("Could not extract model version ID from URL: " ++ url)
    | some after =>
      let version_id := (pySplit after "/").headD ""
      if !(pyIsDigit version_id) then
        .error ("Model version ID is not numeric: " ++ version_id)
      else
        let query := parse_qs parsed.query
        .ok ⟨version_id, extract_options query "type", extract_options query "format",
             extract_options query "size", extract_options query "fp", url⟩

example :
    parse_url "https://civitai.com/api/download/models/746484?type=Model&format=SafeTensor" =
      .ok ⟨"746484", some "Model", some "SafeTensor", none, none,
           "https://civitai.com/api/download/models/746484?type=Model&format=SafeTensor"⟩ := rfl

example :
    parse_url "https://example.com/api/download/models/1" =
      .error "Invalid domain in URL: https://example.com/api/download/models/1" := rfl

example :
    parse_url "https://civitai.com/models/1" =
      .error "Invalid download path in URL: https://civitai.com/models/1" := rfl

example :
    parse_url "https://civitai.com/api/download/models/abc" =
      .error "Model version ID is not numeric: abc" := rfl

/-! ## File selection (`select_model_files` and `matches_constraints`,
src/download.py lines 341-354) and the per-file decision chain in `main`
(src/download.py lines 68-85). -/

structure FileMeta where
  format : Option String
  size : Option String
  fp : Option Nat
deriving Repr, DecidableEq

structure FileDescriptor where
  name : Option String
  type : Option String
  metadata : FileMeta
deriving Repr, DecidableEq

/-- Python truthiness of an optional string (`None` and `""` are falsy). -/
def pyTruthy : Option String → Bool
  | none => false
  | some s => !(s == "")

/-- Python truthiness of an optional integer (`None` and `0` are falsy). -/
def pyTruthyNat : Option Nat → Bool
  | none => false
  | some n => !(n == 0)

/-- Embedding of `matches_constraints` (src/download.py lines 348-354).
The `fp` comparison goes through `str`, exactly as the source compares
`str(meta.get("fp")) != str(fp)`. -/
def matches_constraints (file : FileDescriptor) (size : Option String := none)
    (fp : Option Nat := none) : Bool :=
  if pyTruthy size && !(file.metadata.size == size) then false
  else if pyTruthyNat fp && !(pyStrOptNat file.metadata.fp == pyStrOptNat fp) then false
  else true

set_option linter.unusedVariables false in
/-- Embedding of `select_model_files` (src/download.py lines 341-346).
The `include_companions` parameter is declared by the source but never read
in the body. -/
def select_model_files (files : List FileDescriptor) (size : Option String := none)
    (fp : Option Nat := none) (include_companions : Bool := false) : List FileDescriptor :=
  let model_candidates := files.filter (fun f => f.type == some "Model")
  let companion_candidates := files.filter (fun g => g.type == some "VAE" || g.type == some "Other")
  let filtered := model_candidates.filter (fun f => matches_constraints f size fp)
  filtered ++ companion_candidates

/-- The decision taken for one selected file by the `for f in files` chain
in `main` (src/download.py lines 68-85): each branch only prints, so the
decision is the branch reached. -/
inductive FileAction where
  | skipCompanion
  | skipUnsafe
  | skipSize
  | skipFp
  | download
deriving Repr, DecidableEq

/-- Embedding of the per-file `if/elif` chain of `main`
(src/download.py lines 68-85).  Evaluating
`f.get("metadata", {}).get("format").lower()` on a file whose format is
missing raises `AttributeError`, modelled as `Except.error`. -/
def file_action (include_companions force_unsafe : Bool) (size : Option String)
    (fp : Option Nat) (f : FileDescriptor) : Except String FileAction :=
  if !include_companions && !(f.type.getD "" == "Model") then .ok .skipCompanion
  else
    match (if ! force_unsafe && (f.type.getD "" == "Model") then
             match f.metadata.format with
             | none => Except.error "AttributeError: NoneType object has no attribute lower"
             | some fmt => Except.ok (!(pyLower fmt == "safetensor"))
           else Except.ok false) with
    | .error e => .error e
    | .ok true => .ok .skipUnsafe
    | .ok false =>
      if pyTruthy size && !(f.metadata.size == size) then .ok .skipSize
      else if pyTruthyNat fp && !(pyStrOptNat f.metadata.fp == pyStrOptNat fp) then .ok .skipFp
      else .ok .download

/-! ## Download URL synthesis (`build_civitai_download_url`,
src/download.py lines 235-255). -/

/-- Python `a or b` on optional strings, with Python truthiness. -/
def pyOrStr (a b : Option String) : Option String :=
  if pyTruthy a then a else b

/-- Embedding of `build_civitai_download_url` (src/download.py lines
235-255).  The source computes `type_param` and `format_param` defaults but
never uses them; the returned URL carries no query parameters. -/
def build_civitai_download_url (air : AirDict) : Except String String :=
  if !(air.source == "civitai") then
    .error ("Unsupported source for download: " ++ air.source)
  else
    match pyOrStr air.version (some air.id) with
    | none => .error "No resource ID or version found in AIR."
    | some rid =>
      if rid == "" then .error "No resource ID or version found in AIR."
      else .ok ("https://civitai.com/api/download/models/" ++ rid)

example :
    build_civitai_download_url ⟨"flux1", "lora", "civitai", "667004", some "746484", none⟩ =
      .ok "https://civitai.com/api/download/models/746484" := rfl

/-! ## Filename sanitization (`sanitize_filename`, src/download.py lines
313-330) and `extract_filename` (lines 306-310).

`pathlib.Path(x).name` is modelled for POSIX: split on `/`, drop empty and
`.` components (`..` is kept), take the last component or `""`.  The regex
class `[<>:"/\\|?*\x00-\x1f]` is a single-character class, so `re.sub` is a
character map.  `str.strip()` is modelled over the ASCII whitespace
characters. -/

/-- A character matched by the sanitization regex class
`[<>:"/\\|?*\x00-\x1f]`. -/
def badChar (c : Char) : Bool :=
  c == '<' || c == '>' || c == ':' || c == '"' || c == '/' || c == '\\' ||
    c == '|' || c == '?' || c == '*' || decide (c.toNat < 0x20)

/-- `re.sub(r'[<>:"/\\|?*\x00-\x1f]', '_', name)` as a character map. -/
def reSubBad (l : List Char) : List Char :=
  l.map (fun c => if badChar c then '_' else c)

/-- ASCII whitespace, as stripped by Python `str.strip()`. -/
def wsChar (c : Char) : Bool :=
  c == ' ' || c == '\t' || c == '\n' || c == '\r' || c == '\x0B' || c == '\x0C'

/-- Python `str.strip()` at the ASCII level. -/
def pyStrip (l : List Char) : List Char :=
  ((l.dropWhile wsChar).reverse.dropWhile wsChar).reverse

/-- Split a character list on `/`. -/
def splitSlash : List Char → List (List Char)
  | [] => [[]]
  | c :: t =>
    if c == '/' then [] :: splitSlash t
    else
      match splitSlash t with
      | [] => [[c]]
      | h :: r => (c :: h) :: r

/-- `pathlib.PurePosixPath(s).name`: last retained component of the
slash-split (empty and `.` components dropped, `..` kept), or `""`. -/
def pathName (l : List Char) : List Char :=
  ((splitSlash l).filter (fun p => !p.isEmpty && !(p == ['.']))).getLast?.getD []

/-- The fallback name `f"civitai_download_{int(time())}"`; the current time
is an explicit parameter of the model. -/
def fallback_name (now : Nat) : String :=
  "civitai_download_" ++ natRepr now

/-- Embedding of `sanitize_filename` (src/download.py lines 313-330).  The
input and the result are `Option String` because the Python function
receives and returns `None` for falsy inputs with no default. -/
def sanitize_filename (header_filename : Option String)
    (default_name : Option String := none) (now : Nat := 0) : Option String :=
  match header_filename with
  | none => default_name
  | some s =>
    if s == "" then default_name
    else
      let name := reSubBad (pathName s.data)
      if (pyStrip name).isEmpty then
        if pyTruthy default_name then default_name
        else some (fallback_name now)
      else some (String.mk name)

example : sanitize_filename (some "../../etc/passwd") none 7 = some "passwd" := rfl

example : sanitize_filename (some " ") none 7 = some "civitai_download_7" := rfl

example : sanitize_filename (some "a/..") none 7 = some ".." := rfl

/-! ## Transfer executor (`download_model` and `extract_filename`,
src/download.py lines 258-310).

The HTTP response is a value; the filesystem write is returned explicitly
as the file that would be created (`none` when the function raises before
opening the destination file), so that on-failure guarantees are statable. -/

structure Response where
  status : Nat
  contentType : Option String
  contentDisposition : Option String
  url : String
  chunks : List (List Nat)
deriving Repr, DecidableEq

/-- Python `str.strip('"')`. -/
def pyStripQuotes (l : List Char) : List Char :=
  ((l.dropWhile (fun c => c == '"')).reverse.dropWhile (fun c => c == '"')).reverse

/-- Embedding of `extract_filename` (src/download.py lines 306-310). -/
def extract_filename (resp : Response) : String :=
  match resp.contentDisposition with
  | some cd =>
    if containsSub "filename=" cd then
      pyUnquote (String.mk (pyStripQuotes ((pySplit cd "filename=").getD 1 "").data))
    else String.mk (pathName resp.url.data)
  | none => String.mk (pathName resp.url.data)

/-- The distinct raise sites of `download_model` (src/download.py lines
262-273), plus the `TypeError` reached when the sanitized filename is
`None`.  The source raises `requests.HTTPError` for the first three and a
bare `Exception` for the HTML case; they are distinguished here by raise
site, carrying the message of the source. -/
inductive TransferError where
  | accessDenied (msg : String)
  | notFound (msg : String)
  | serverError (msg : String)
  | htmlContent (msg : String)
  | typeFault (msg : String)
deriving Repr, DecidableEq

/-- The message carried by a `TransferError` (what `except Exception as e`
sees in `main`). -/
def TransferError.msg : TransferError → String
  | .accessDenied m => m
  | .notFound m => m
  | .serverError m => m
  | .htmlContent m => m
  | .typeFault m => m

structure WrittenFile where
  name : String
  bytes : List Nat
deriving Repr, DecidableEq

/-- Embedding of `download_model` (src/download.py lines 258-303).  The
first component is the outcome (`Except.error` for a raise); the second is
the file written to `local_dir`, `none` when the function raises before the
`open` at line 290.  The `if chunk` guard of the streaming loop drops empty
chunks. -/
def download_model (resp : Response) (local_dir : String) (now : Nat) :
    Except TransferError WrittenFile × Option WrittenFile :=
  if [400, 401, 403].contains resp.status then
    (.error (.accessDenied ("Access denied for " ++ resp.url ++ ": " ++ natRepr resp.status)),
     none)
  else if [404, 410].contains resp.status then
    (.error (.notFound ("Resource not found for " ++ resp.url ++ ": " ++ natRepr resp.status)),
     none)
  else if [500, 502, 503, 504].contains resp.status then
    (.error (.serverError ("Server error for " ++ resp.url ++ ": " ++ natRepr resp.status)),
     none)
  else if containsSub "text/html" (resp.contentType.getD "") then
    (.error (.htmlContent
       "Received HTML instead of a file. Possibly an invalid token or expired link."),
     none)
  else
    let filename := extract_filename resp
    match sanitize_filename (some filename) none now with
    | none =>
      (.error (.typeFault ("unsupported operand type for " ++ local_dir ++ ": NoneType")), none)
    | some name =>
      let bytes := (resp.chunks.filter (fun c => !c.isEmpty)).flatten
      let wf : WrittenFile := ⟨name, bytes⟩
      (.ok wf, some wf)

/-! ## The `main` driver (src/download.py lines 21-88).

Network effects are an explicit environment: `fetch` is the outcome of
`get_model_data` for a version id (src/download.py lines 219-232, a
`raise_for_status` failure is `Except.error`), and `response` is the final
HTTP response `requests.get` yields for a download URL.  In the source, the
AIR/URL resolution loop runs with no exception handler, so any error there
aborts the process (non-zero exit); the download loop wraps each URL in
`try/except`, so errors there are reported and iteration continues, and the
script then falls off the end of `main` with exit status 0. -/

structure ModelData where
  files : Option (List FileDescriptor)
  format : Option String
deriving Repr, DecidableEq

/-- Python `{}`: the initial value of `model_data` in `main` (line 27). -/
def emptyModelData : ModelData := ⟨none, none⟩

structure Env where
  fetch : String → Except String ModelData
  response : String → Response

/-- Python dict assignment `d[k] = v` on an insertion-ordered dictionary. -/
def dictInsert {α : Type} (d : List (String × α)) (k : String) (v : α) : List (String × α) :=
  match d with
  | [] => [(k, v)]
  | (k0, v0) :: t => if k0 == k then (k0, v) :: t else (k0, v0) :: dictInsert t k v

/-- The AIR resolution loop of `main` (src/download.py lines 38-50),
accumulating `validated_urls`; `model_data` persists across iterations as
in the source.  Runs outside any `try`, so the first error aborts. -/
def air_phase_go (env : Env) : List String → ModelData → List (String × ModelData) →
    Except String (List (String × ModelData))
  | [], _, acc => .ok acc
  | air :: rest, model_data, acc => do
    let air_dict ← parse_air air
    let md ← if air_dict.format == none
             then env.fetch (pyStrOptStr air_dict.version)
             else .ok model_data
    let url ← build_civitai_download_url air_dict
    air_phase_go env rest md (dictInsert acc url md)

def air_phase (env : Env) (airs : List String) : Except String (List (String × ModelData)) :=
  air_phase_go env airs emptyModelData []

/-- The URL validation loop of `main` (src/download.py lines 51-59).
References failing the `startswith`/`in` pre-check are printed and skipped;
`parse_url` and `get_model_data` failures abort (no handler). -/
def url_phase_go (env : Env) : List String → List (String × ModelData) →
    Except String (List (String × ModelData))
  | [], acc => .ok acc
  | url :: rest, acc =>
    if !(pyStartsWith "http" url) || !(containsSub "civitai.com" url) then
      url_phase_go env rest acc
    else do
      let pu ← parse_url url
      let md ← env.fetch pu.version
      url_phase_go env rest (dictInsert acc url md)

def url_phase (env : Env) (urls : List String) : Except String (List (String × ModelData)) :=
  url_phase_go env urls []

/-- The body of the `try` block of the download loop of `main`
(src/download.py lines 62-86) for one validated URL: `md["files"]` raises
`KeyError` when absent, the per-file chain may raise `AttributeError`, and
`download_model` may raise; all of these are caught by the `except` in
`main`.  `select_model_files` never returns `None`, so the
`if files is None` skip branch of line 65 is dead code. -/
def url_download_step (env : Env) (size : Option String) (fp : Option Nat)
    (include_companions force_unsafe : Bool) (local_dir : String) (now : Nat)
    (url : String) (md : ModelData) : Except String Unit := do
  let files ← match md.files with
    | none => Except.error "KeyError: files"
    | some fs => Except.ok fs
  let selected := select_model_files files size fp
  let _actions ← selected.mapM (file_action include_companions force_unsafe size fp)
  match download_model (env.response url) local_dir now with
  | (.error e, _) => Except.error e.msg
  | (.ok _, _) => Except.ok ()

/-- The download loop of `main` (src/download.py lines 60-88): every
validated URL is attempted; each failure is caught, reported and the loop
continues. -/
def download_loop (env : Env) (size : Option String) (fp : Option Nat)
    (include_companions force_unsafe : Bool) (local_dir : String) (now : Nat)
    (validated : List (String × ModelData)) : List (String × Except String Unit) :=
  validated.map (fun kv =>
    (kv.1, url_download_step env size fp include_companions force_unsafe local_dir now kv.1 kv.2))

/-- `main` in AIR mode: resolution phase (uncaught errors abort), then the
download loop (errors caught per reference). -/
def main_air (env : Env) (airs : List String) (size : Option String) (fp : Option Nat)
    (include_companions force_unsafe : Bool) (local_dir : String) (now : Nat) :
    Except String (List (String × Except String Unit)) := do
  let validated ← air_phase env airs
  .ok (download_loop env size fp include_companions force_unsafe local_dir now validated)

/-- `main` in URL mode. -/
def main_url (env : Env) (urls : List String) (size : Option String) (fp : Option Nat)
    (include_companions force_unsafe : Bool) (local_dir : String) (now : Nat) :
    Except String (List (String × Except String Unit)) := do
  let validated ← url_phase env urls
  .ok (download_loop env size fp include_companions force_unsafe local_dir now validated)

/-- Process exit status of the modelled run: an uncaught exception exits
non-zero (Python exits 1), otherwise `main` returns and the process exits 0
regardless of per-reference download failures. -/
def exit_code (r : Except String (List (String × Except String Unit))) : Nat :=
  match r with
  | .error _ => 1
  | .ok _ => 0

/-! ## Helper lemmas -/

theorem takeWhile_middle {p : Char → Bool} (l : List Char) (c : Char) (r : List Char)
    (hl : ∀ x ∈ l, p x = true) (hc : p c = false) :
    (l ++ c :: r).takeWhile p = l ∧ (l ++ c :: r).dropWhile p = c :: r := by
  induction l with
  | nil => simp [List.takeWhile_cons, List.dropWhile_cons, hc]
  | cons a t ih =>
    have ha : p a = true := hl a (List.mem_cons_self a t)
    have h2 := ih (fun x hx => hl x (List.mem_cons_of_mem a hx))
    simp [List.takeWhile_cons, List.dropWhile_cons, ha, h2.1, h2.2]

theorem span_middle {p : Char → Bool} (l : List Char) (c : Char) (r : List Char)
    (hl : ∀ x ∈ l, p x = true) (hc : p c = false) :
    (l ++ c :: r).span p = (l, c :: r) := by
  have h := takeWhile_middle l c r hl hc
  rw [List.span_eq_take_drop, h.1, h.2]

theorem span_all {p : Char → Bool} (l : List Char) (hl : ∀ x ∈ l, p x = true) :
    l.span p = (l, []) := by
  rw [List.span_eq_take_drop]
  induction l with
  | nil => rfl
  | cons a t ih =>
    have ha : p a = true := hl a (List.mem_cons_self a t)
    have h2 := ih (fun x hx => hl x (List.mem_cons_of_mem a hx))
    simp [List.takeWhile_cons, List.dropWhile_cons, ha] at h2 ⊢
    exact h2

/-- A colon-free field followed by `:` determines any colon-free,
colon-terminated literal prefix. -/
theorem colon_field_prefix_eq : ∀ (pl eco : List Char), (∀ c ∈ pl, (c == ':') = false) →
    (∀ c ∈ eco, (c == ':') = false) → ∀ rest : List Char,
    (pl ++ [':']).isPrefixOf (eco ++ ':' :: rest) = true → pl = eco := by
  intro pl
  induction pl with
  | nil =>
    intro eco _ he rest h
    cases eco with
    | nil => rfl
    | cons b e =>
      exfalso
      have hb : (b == ':') = false := he b (List.mem_cons_self b e)
      simp [List.isPrefixOf] at h
      rw [← h] at hb
      simp at hb
  | cons a t ih =>
    intro eco hp he rest h
    cases eco with
    | nil =>
      exfalso
      have ha : (a == ':') = false := hp a (List.mem_cons_self a t)
      simp [List.isPrefixOf] at h
      simp [h.1] at ha
    | cons b e =>
      simp only [List.cons_append, List.isPrefixOf, Bool.and_eq_true, beq_iff_eq] at h
      have := ih e (fun c hc => hp c (List.mem_cons_of_mem a hc))
        (fun c hc => he c (List.mem_cons_of_mem b hc)) rest h.2
      rw [h.1, this]

theorem isPrefixOf_trans : ∀ (p q l : List Char), p.isPrefixOf q = true →
    q.isPrefixOf l = true → p.isPrefixOf l = true := by
  intro p
  induction p with
  | nil => intro q l _ _; cases l <;> rfl
  | cons a p ih =>
    intro q l h1 h2
    cases q with
    | nil => simp [List.isPrefixOf] at h1
    | cons b q =>
      cases l with
      | nil => simp [List.isPrefixOf] at h2
      | cons c l =>
        simp only [List.isPrefixOf, Bool.and_eq_true, beq_iff_eq] at h1 h2 ⊢
        exact ⟨h1.1.trans h2.1, ih q l h1.2 h2.2⟩

theorem airAttempts_no_affix {l : List Char}
    (h1 : "urn:".data.isPrefixOf l = false) (h2 : "air:".data.isPrefixOf l = false) :
    airAttempts l = [l] := by
  have h0 : "urn:air:".data.isPrefixOf l = false := by
    cases h : "urn:air:".data.isPrefixOf l with
    | false => rfl
    | true =>
      exfalso
      have := isPrefixOf_trans "urn:".data "urn:air:".data l (by decide) h
      rw [this] at h1
      exact Bool.true_eq_false.mp h1
  simp only [airAttempts, List.map_cons, List.map_nil, List.filterMap_cons, List.filterMap_nil,
    h0, h1, h2]
  simp [List.isPrefixOf]

/-- The assembled form of an AIR string matching the documented grammar
`ecosystem:kind:source:id[@version][.format]` (spec-side definition used to
state the round-trip property of `parse_air`). -/
def airAssemble (eco ty src idp : List Char) (ver fmt : Option (List Char)) : List Char :=
  eco ++ ':' :: (ty ++ ':' :: (src ++ ':' :: (idp ++
    ((match ver with | some v => '@' :: v | none => []) ++
     (match fmt with | some f => '.' :: f | none => [])))))

theorem splitColon_append (f R : List Char) (hf : f ≠ [])
    (h2 : ∀ c ∈ f, (c == ':') = false) : splitColon (f ++ ':' :: R) = some (f, R) := by
  obtain ⟨a, t, rfl⟩ := List.exists_cons_of_ne_nil hf
  have hl : ∀ x ∈ a :: t, (fun c => !(c == ':')) x = true := by
    intro x hx
    simp [h2 x hx]
  have hc : (fun c => !(c == ':')) ':' = false := by decide
  unfold splitColon
  rw [span_middle (a :: t) ':' R hl hc]
  rfl

theorem parseAirCore_assemble (eco ty src idp : List Char) (ver fmt : Option (List Char))
    (heco : eco ≠ []) (hty : ty ≠ []) (hsrc : src ≠ []) (hid : idp ≠ [])
    (heco2 : ∀ c ∈ eco, (c == ':') = false) (hty2 : ∀ c ∈ ty, (c == ':') = false)
    (hsrc2 : ∀ c ∈ src, (c == ':') = false)
    (hid2 : ∀ c ∈ idp, (c == '@') = false ∧ (c == '.') = false)
    (hver : ∀ v, ver = some v → v ≠ [] ∧ ∀ c ∈ v, (c == '.') = false)
    (hfmt : ∀ f, fmt = some f → f ≠ [] ∧ f.all isWordChar = true) :
    parseAirCore (airAssemble eco ty src idp ver fmt) =
      some ⟨String.mk eco, String.mk ty, String.mk src, String.mk idp,
            ver.map String.mk, fmt.map String.mk⟩ := by
  have hidl : ∀ x ∈ idp, (fun c => !(c == '@') && !(c == '.')) x = true := by
    intro x hx
    simp [(hid2 x hx).1, (hid2 x hx).2]
  obtain ⟨ia, it, hidp⟩ := List.exists_cons_of_ne_nil hid
  unfold airAssemble parseAirCore
  rw [splitColon_append eco _ heco heco2]
  simp only [Option.bind_eq_bind, Option.some_bind]
  rw [splitColon_append ty _ hty hty2]
  simp only [Option.bind_eq_bind, Option.some_bind]
  rw [splitColon_append src _ hsrc hsrc2]
  simp only [Option.bind_eq_bind, Option.some_bind]
  cases hv : ver with
  | none =>
    cases hf : fmt with
    | none =>
      simp only [List.append_nil]
      rw [span_all idp hidl]
      simp [hidp]
    | some f =>
      obtain ⟨hfne, hfw⟩ := hfmt f hf
      have hdot : (fun c => !(c == '@') && !(c == '.')) '.' = false := by decide
      simp only [List.nil_append]
      rw [span_middle idp '.' f hidl hdot]
      simp [hidp, List.isEmpty_iff, hfne, hfw]
  | some v =>
    obtain ⟨hvne, hvd⟩ := hver v hv
    have hat : (fun c => !(c == '@') && !(c == '.')) '@' = false := by decide
    have hvl : ∀ x ∈ v, (fun c => !(c == '.')) x = true := by
      intro x hx
      simp [hvd x hx]
    cases hf : fmt with
    | none =>
      simp only [List.append_nil]
      rw [span_middle idp '@' v hidl hat]
      simp only [hidp, List.isEmpty_cons]
      rw [span_all v hvl]
      simp [List.isEmpty_iff, hvne, hidp]
    | some f =>
      obtain ⟨hfne, hfw⟩ := hfmt f hf
      have hdot : (fun c => !(c == '.')) '.' = false := by decide
      have hshape : ('@' :: v) ++ ('.' :: f) = '@' :: (v ++ '.' :: f) := rfl
      rw [hshape, span_middle idp '@' (v ++ '.' :: f) hidl hat]
      simp only [hidp, List.isEmpty_cons]
      rw [span_middle v '.' f hvl hdot]
      simp [List.isEmpty_iff, hvne, hfne, hfw, hidp]

theorem no_colon_lit_affix {lit eco rest : List Char} (hl : ∀ c ∈ lit, (c == ':') = false)
    (he : ∀ c ∈ eco, (c == ':') = false) (hne : eco ≠ lit) :
    (lit ++ [':']).isPrefixOf (eco ++ ':' :: rest) = false := by
  cases h : (lit ++ [':']).isPrefixOf (eco ++ ':' :: rest) with
  | false => rfl
  | true => exact absurd (colon_field_prefix_eq lit eco hl he rest h).symm hne

theorem findSome?_singleton {α β : Type} (f : α → Option β) (a : α) :
    List.findSome? f [a] = f a := by
  cases h : f a <;> simp [List.findSome?, h]

/-- C6: every AIR string matching the grammar
`[urn:][air:]ecosystem:kind:source:id[@version][.format]` parses back to
exactly its fields; the cited example parses to the documented dictionary;
any input the regex rejects fails with the `Invalid AIR format` error.
The round-trip clause requires its fields to respect the character classes
of the grammar and the ecosystem not to collide with the optional literal
prefixes (the regex strips a leading `urn:` / `air:` field). -/
theorem air_grammar_roundtrip :
    (parse_air "urn:air:flux1:lora:civitai:667004@746484" =
       .ok ⟨"flux1", "lora", "civitai", "667004", some "746484", none⟩)
  ∧ (parse_air "nocolons" = .error "Invalid AIR format: nocolons")
  ∧ (∀ s : String, (∃ d, parse_air s = .ok d) ∨
       parse_air s = .error ("Invalid AIR format: " ++ s))
  ∧ (∀ (eco ty src idp : List Char) (ver fmt : Option (List Char)),
       eco ≠ [] → ty ≠ [] → src ≠ [] → idp ≠ [] →
       eco ≠ "urn".data → eco ≠ "air".data →
       (∀ c ∈ eco, (c == ':') = false) → (∀ c ∈ ty, (c == ':') = false) →
       (∀ c ∈ src, (c == ':') = false) →
       (∀ c ∈ idp, (c == '@') = false ∧ (c == '.') = false) →
       (∀ v, ver = some v → v ≠ [] ∧ ∀ c ∈ v, (c == '.') = false) →
       (∀ f, fmt = some f → f ≠ [] ∧ f.all isWordChar = true) →
       parse_air (String.mk (airAssemble eco ty src idp ver fmt)) =
         .ok ⟨String.mk eco, String.mk ty, String.mk src, String.mk idp,
              ver.map String.mk, fmt.map String.mk⟩) := by
  refine ⟨rfl, rfl, ?_, ?_⟩
  · intro s
    cases h : parseAirChars s.data with
    | some d => exact Or.inl ⟨d, by simp [parse_air, h]⟩
    | none => exact Or.inr (by simp [parse_air, h])
  · intro eco ty src idp ver fmt h1 h2 h3 h4 hu ha he2 ht2 hs2 hi2 hv2 hf2
    have hassemble : (String.mk (airAssemble eco ty src idp ver fmt)).data =
        airAssemble eco ty src idp ver fmt := rfl
    have hurn : "urn:".data.isPrefixOf (airAssemble eco ty src idp ver fmt) = false := by
      have hsplit : "urn:".data = "urn".data ++ [':'] := rfl
      rw [hsplit]
      exact no_colon_lit_affix (by decide) he2 hu
    have hair : "air:".data.isPrefixOf (airAssemble eco ty src idp ver fmt) = false := by
      have hsplit : "air:".data = "air".data ++ [':'] := rfl
      rw [hsplit]
      exact no_colon_lit_affix (by decide) he2 ha
    have hcore := parseAirCore_assemble eco ty src idp ver fmt h1 h2 h3 h4 he2 ht2 hs2
      hi2 hv2 hf2
    unfold parse_air parseAirChars
    rw [hassemble, airAttempts_no_affix hurn hair, findSome?_singleton, hcore]

/-- Witness for C6: the round-trip clause at a concrete grammar instance. -/
theorem air_grammar_roundtrip_witness :
    parse_air (String.mk (airAssemble "sd1".data "model".data "civitai".data "42".data
        (some "7".data) (some "safetensor".data))) =
      .ok ⟨String.mk "sd1".data, String.mk "model".data, String.mk "civitai".data,
           String.mk "42".data, (some "7".data).map String.mk,
           (some "safetensor".data).map String.mk⟩ :=
  air_grammar_roundtrip.2.2.2 "sd1".data "model".data "civitai".data "42".data
    (some "7".data) (some "safetensor".data)
    (by decide) (by decide) (by decide) (by decide) (by decide) (by decide)
    (by decide) (by decide) (by decide) (by decide)
    (fun v hv => by cases hv; exact ⟨by decide, by decide⟩)
    (fun f hf => by cases hf; exact ⟨by decide, by decide⟩)

/-- C1 counterexample: with `allowUnsafeFormat` unset (the selector is called
with its default `include_companions := false` and never receives the
`force_unsafe` flag at all), `select_model_files` still returns a Model
entry whose `metadata.format` is `ckpt`, which matches the (absent) size/fp
constraints; no safety gate exists inside the selector. -/
theorem select_keeps_unsafe_format :
    ((⟨some "m.ckpt", some "Model", ⟨some "ckpt", none, none⟩⟩ : FileDescriptor) ∈
      select_model_files [⟨some "m.ckpt", some "Model", ⟨some "ckpt", none, none⟩⟩]
        none none false)
    ∧ pyLower "ckpt" ≠ "safetensor" := by
  constructor
  · decide
  · decide

/-- C1 amended: the safety gate is not applied by `select_model_files` (a
matching Model entry is selected whatever its format); instead, the
per-file chain of `main` marks every Model entry whose format
(case-insensitively) differs from `safetensor` as skipped-as-unsafe when
`force_unsafe` is off. -/
theorem unsafe_gate_is_in_main_loop :
    (∀ (files : List FileDescriptor) (size : Option String) (fp : Option Nat)
       (f : FileDescriptor), f ∈ files → f.type = some "Model" →
       matches_constraints f size fp = true →
       f ∈ select_model_files files size fp false)
  ∧ (∀ (inc : Bool) (size : Option String) (fp : Option Nat) (f : FileDescriptor)
       (fmt : String), f.type = some "Model" → f.metadata.format = some fmt →
       pyLower fmt ≠ "safetensor" →
       file_action inc false size fp f = .ok .skipUnsafe) := by
  constructor
  · intro files size fp f hmem htype hmatch
    simp only [select_model_files, List.mem_append, List.mem_filter]
    exact Or.inl ⟨⟨hmem, by simp [htype]⟩, hmatch⟩
  · intro inc size fp f fmt htype hfmt hlow
    have hbeq : (f.type.getD "" == "Model") = true := by simp [htype]
    have hne : (pyLower fmt == "safetensor") = false := beq_eq_false_iff_ne.mpr hlow
    simp [file_action, hbeq, hfmt, hne]

/-- Witness for the amended theorem of C1 at a concrete unsafe Model file. -/
theorem unsafe_gate_is_in_main_loop_witness :
    ((⟨some "w.pt", some "Model", ⟨some "PickleTensor", none, none⟩⟩ : FileDescriptor) ∈
       select_model_files [⟨some "w.pt", some "Model", ⟨some "PickleTensor", none, none⟩⟩]
         none none false)
    ∧ file_action true false none none
        ⟨some "w.pt", some "Model", ⟨some "PickleTensor", none, none⟩⟩ = .ok .skipUnsafe :=
  ⟨unsafe_gate_is_in_main_loop.1 _ none none _ (by decide) rfl (by decide),
   unsafe_gate_is_in_main_loop.2 true none none _ "PickleTensor" rfl rfl (by decide)⟩

/-- C2 counterexample: with `includeCompanions` unset, the selector result
still contains a companion (VAE) entry, because `select_model_files`
ignores its `include_companions` parameter. -/
theorem select_includes_companion_despite_flag :
    (⟨some "v.pt", some "VAE", ⟨none, none, none⟩⟩ : FileDescriptor) ∈
      select_model_files [⟨some "v.pt", some "VAE", ⟨none, none, none⟩⟩] none none false := by
  decide

/-- C2 amended: `select_model_files` appends the companion candidates
unconditionally (its `include_companions` parameter is dead), returning the
size/fp-matching Model entries in manifest order followed by the VAE/Other
entries in manifest order; the companions-only-if-requested behaviour lives
in the per-file chain of `main`, which marks every non-Model entry
skipped-as-companion when the flag is unset. -/
theorem companions_always_selected :
    (∀ (files : List FileDescriptor) (size : Option String) (fp : Option Nat)
       (inc inc' : Bool),
       select_model_files files size fp inc = select_model_files files size fp inc')
  ∧ (∀ (files : List FileDescriptor) (size : Option String) (fp : Option Nat) (inc : Bool),
       select_model_files files size fp inc =
         files.filter (fun f => f.type == some "Model" && matches_constraints f size fp)
           ++ files.filter (fun g => g.type == some "VAE" || g.type == some "Other"))
  ∧ (∀ (force : Bool) (size : Option String) (fp : Option Nat) (f : FileDescriptor),
       ¬(f.type.getD "" = "Model") →
       file_action false force size fp f = .ok .skipCompanion) := by
  refine ⟨fun _ _ _ _ _ => rfl, ?_, ?_⟩
  · intro files size fp inc
    simp only [select_model_files, List.filter_filter]
    congr 1
    apply List.filter_congr
    intro a _
    exact Bool.and_comm _ _
  · intro force size fp f htype
    have hbeq : (f.type.getD "" == "Model") = false := beq_eq_false_iff_ne.mpr htype
    simp [file_action, hbeq]

/-- Witness for the amended theorem of C2 at a concrete companion file. -/
theorem companions_always_selected_witness :
    file_action false true none none (⟨some "v.pt", some "VAE", ⟨none, none, none⟩⟩ :
        FileDescriptor) = .ok .skipCompanion :=
  companions_always_selected.2.2 true none none _ (by decide)

/-- C4 counterexample: a final response with status 501 — a 5xx status — is
not classified as an upstream error: the transfer proceeds and streams the
body to disk. -/
theorem status_501_streams :
    download_model ⟨501, some "application/octet-stream",
        some "attachment; filename=m.bin", "https://civitai.com/api/download/models/1",
        [[7, 8]]⟩ "models" 0 =
      (.ok ⟨"m.bin", [7, 8]⟩, some ⟨"m.bin", [7, 8]⟩) := rfl

/-- C4 amended: statuses 400/401/403 fail as access-denied, 404/410 as
not-found, and exactly 500/502/503/504 as server errors, each without
creating the destination file; any other status (including other 5xx
statuses such as 501 or 505) is not failed at the status stage — the
transfer behaves as for a 200 response. -/
theorem transfer_status_taxonomy :
    ∀ (resp : Response) (dir : String) (now : Nat),
      ([400, 401, 403].contains resp.status = true →
        download_model resp dir now =
          (.error (.accessDenied ("Access denied for " ++ resp.url ++ ": " ++
            natRepr resp.status)), none))
    ∧ ([404, 410].contains resp.status = true →
        download_model resp dir now =
          (.error (.notFound ("Resource not found for " ++ resp.url ++ ": " ++
            natRepr resp.status)), none))
    ∧ ([500, 502, 503, 504].contains resp.status = true →
        download_model resp dir now =
          (.error (.serverError ("Server error for " ++ resp.url ++ ": " ++
            natRepr resp.status)), none))
    ∧ ([400, 401, 403, 404, 410, 500, 502, 503, 504].contains resp.status = false →
        download_model resp dir now =
          download_model ⟨200, resp.contentType, resp.contentDisposition, resp.url,
            resp.chunks⟩ dir now) := by
  intro resp dir now
  refine ⟨?_, ?_, ?_, ?_⟩
  · intro h
    simp only [List.contains_cons, List.contains_nil, Bool.or_eq_true, beq_iff_eq,
      Bool.false_eq_true, or_false] at h
    rcases h with h | h | h
    all_goals simp [download_model, h, List.contains_cons, List.contains_nil]
  · intro h
    simp only [List.contains_cons, List.contains_nil, Bool.or_eq_true, beq_iff_eq,
      Bool.false_eq_true, or_false] at h
    rcases h with h | h
    all_goals simp [download_model, h, List.contains_cons, List.contains_nil]
  · intro h
    simp only [List.contains_cons, List.contains_nil, Bool.or_eq_true, beq_iff_eq,
      Bool.false_eq_true, or_false] at h
    rcases h with h | h | h | h
    all_goals simp [download_model, h, List.contains_cons, List.contains_nil]
  · intro h
    simp only [List.contains_cons, List.contains_nil, Bool.or_eq_false_iff,
      beq_eq_false_iff_ne, ne_eq] at h
    obtain ⟨h400, h401, h403, h404, h410, h500, h502, h503, h504, -⟩ := h
    simp only [download_model, List.contains_cons, List.contains_nil, Bool.or_eq_true,
      beq_iff_eq, h400, h401, h403, h404, h410, h500, h502, h503, h504, Bool.false_eq_true,
      or_false, or_self, if_false, false_or]
    rfl

/-- Witness for the amended theorem of C4: the access-denied clause at status 403. -/
theorem transfer_status_taxonomy_witness :
    download_model ⟨403, some "text/plain", none, "u", []⟩ "models" 0 =
      (.error (.accessDenied ("Access denied for " ++ "u" ++ ": " ++ natRepr 403)), none) :=
  (transfer_status_taxonomy ⟨403, some "text/plain", none, "u", []⟩ "models" 0).1 (by decide)

/-- C5 counterexample: a response whose declared content type is `text/html`
but whose status is 403 fails as access-denied, not as the unexpected
content type error — the status classification runs first. -/
theorem html_with_403_fails_as_access_denied :
    (download_model ⟨403, some "text/html", none, "u", []⟩ "models" 0 =
       (.error (.accessDenied "Access denied for u: 403"), none))
    ∧ containsSub "text/html" ((some "text/html").getD "") = true := ⟨rfl, rfl⟩

/-- C5 amended: a response declaring a `text/html` content type never
creates the destination file; when its status is not one of the
status-classified errors (400/401/403/404/410/500/502/503/504) it fails
precisely as the HTML content error, raised before the destination file is
opened. -/
theorem html_gate :
    ∀ (resp : Response) (dir : String) (now : Nat),
      containsSub "text/html" (resp.contentType.getD "") = true →
      ((download_model resp dir now).2 = none
       ∧ ([400, 401, 403, 404, 410, 500, 502, 503, 504].contains resp.status = false →
          download_model resp dir now =
            (.error (.htmlContent
               "Received HTML instead of a file. Possibly an invalid token or expired link."),
             none))) := by
  intro resp dir now hct
  constructor
  · unfold download_model
    split
    · rfl
    · split
      · rfl
      · split
        · rfl
        · simp [hct]
  · intro hst
    simp only [List.contains_cons, List.contains_nil, Bool.or_eq_false_iff,
      beq_eq_false_iff_ne, ne_eq] at hst
    obtain ⟨h400, h401, h403, h404, h410, h500, h502, h503, h504, -⟩ := hst
    simp [download_model, h400, h401, h403, h404, h410, h500, h502, h503, h504, hct]

/-- Witness for the amended theorem of C5 at a concrete HTML response. -/
theorem html_gate_witness :
    (download_model ⟨200, some "text/html; charset=utf-8", none, "u", [[1]]⟩ "models" 0).2 =
        none
    ∧ download_model ⟨200, some "text/html; charset=utf-8", none, "u", [[1]]⟩ "models" 0 =
        (.error (.htmlContent
           "Received HTML instead of a file. Possibly an invalid token or expired link."),
         none) := by
  have h := html_gate ⟨200, some "text/html; charset=utf-8", none, "u", [[1]]⟩ "models" 0
    (by decide)
  exact ⟨h.1, h.2 (by decide)⟩

/-! ## Query extraction: first occurrence wins (`extract_options` over
`parse_qs`). -/

theorem extract_dictAppend (d : List (String × List String)) (k : String) (v : String)
    (key : String) :
    extract_options (dictAppend d k v) key =
      match extract_options d key with
      | some w => some w
      | none => if k == key then some v else none := by
  induction d with
  | nil =>
    by_cases h : k = key
    · subst h
      simp [dictAppend, extract_options]
    · have hb : (k == key) = false := beq_eq_false_iff_ne.mpr h
      simp [dictAppend, extract_options, hb]
  | cons hd t ih =>
    obtain ⟨k0, vs⟩ := hd
    by_cases h0 : k0 = k
    · subst h0
      by_cases h1 : k0 = key
      · subst h1
        cases vs with
        | nil => simp [dictAppend, extract_options]
        | cons a vt => simp [dictAppend, extract_options]
      · have hb : (k0 == key) = false := beq_eq_false_iff_ne.mpr h1
        simp only [dictAppend, beq_self_eq_true, if_true, extract_options,
          List.find?_cons, hb]
        cases hx : t.find? (fun kv => kv.1 == key) with
        | none => simp [hx]
        | some kv => cases hkv : kv.2.head? <;> simp [hx, hkv]
    · have hb0 : (k0 == k) = false := beq_eq_false_iff_ne.mpr h0
      by_cases h1 : k0 = key
      · subst h1
        have hkk : (k == k0) = false := beq_eq_false_iff_ne.mpr (fun e => h0 e.symm)
        cases vs with
        | nil => simp [dictAppend, extract_options, hb0, hkk]
        | cons a vt => simp [dictAppend, extract_options, hb0]
      · have hb1 : (k0 == key) = false := beq_eq_false_iff_ne.mpr h1
        simp only [dictAppend, hb0, Bool.false_eq_true, if_false, extract_options,
          List.find?_cons, hb1]
        simpa [extract_options] using ih

theorem extract_first_occurrence (qs key : String) :
    extract_options (parse_qs qs) key =
      ((parse_qsl qs).find? (fun kv => kv.1 == key)).map (fun kv => kv.2) := by
  have main : ∀ (ps : List (String × String)) (d : List (String × List String)),
      extract_options (ps.foldl (fun d kv => dictAppend d kv.1 kv.2) d) key =
        match extract_options d key with
        | some w => some w
        | none => (ps.find? (fun kv => kv.1 == key)).map (fun kv => kv.2) := by
    intro ps
    induction ps with
    | nil =>
      intro d
      cases h : extract_options d key <;> simp [h]
    | cons a ps ih =>
      intro d
      obtain ⟨ak, av⟩ := a
      simp only [List.foldl_cons]
      rw [ih (dictAppend d ak av), extract_dictAppend]
      by_cases h : ak = key
      · have hbt : (ak == key) = true := beq_iff_eq.mpr h
        cases hx : extract_options d key <;> simp [List.find?_cons, hbt, hx]
      · have hb : (ak == key) = false := beq_eq_false_iff_ne.mpr h
        cases hx : extract_options d key <;> simp [List.find?_cons, hb, hx]
  have h := main (parse_qsl qs) []
  have h0 : extract_options [] key = none := rfl
  rw [parse_qs, h, h0]

/-- C7: URL resolution is total and typed — a scheme not starting with
`http` or a host not containing `civitai.com` yields the invalid-domain
error; a surviving path not starting with the download prefix yields the
invalid-path error; every error is one of the four typed causes; every
success carries a numeric version id, the raw URL, and the query options
`type`/`format`/`size`/`fp`; and option extraction returns the first
occurrence of a key in the query string and `none` for absent keys. -/
theorem url_resolution_typed :
    (∀ url : String,
      ((pyStartsWith "http" (urlparse url).scheme = false ∨
          containsSub "civitai.com" (urlparse url).netloc = false) →
        parse_url url = .error ("Invalid domain in URL: " ++ url))
      ∧ (pyStartsWith "http" (urlparse url).scheme = true →
         containsSub "civitai.com" (urlparse url).netloc = true →
         pyStartsWith "/api/download/models/" (urlparse url).path = false →
         parse_url url = .error ("Invalid download path in URL: " ++ url))
      ∧ (∀ d, parse_url url = .ok d →
          pyIsDigit d.version = true ∧ d.raw_url = url ∧
          d.type = extract_options (parse_qs (urlparse url).query) "type" ∧
          d.format = extract_options (parse_qs (urlparse url).query) "format" ∧
          d.size = extract_options (parse_qs (urlparse url).query) "size" ∧
          d.fp = extract_options (parse_qs (urlparse url).query) "fp")
      ∧ (∀ e, parse_url url = .error e →
          e = "Invalid domain in URL: " ++ url ∨
          e = "Invalid download path in URL: " ++ url ∨
          e = "Could not extract model version ID from URL: " ++ url ∨
          ∃ v, e = "Model version ID is not numeric: " ++ v))
  ∧ (∀ qs key : String, extract_options (parse_qs qs) key =
      ((parse_qsl qs).find? (fun kv => kv.1 == key)).map (fun kv => kv.2)) := by
  constructor
  · intro url
    refine ⟨?_, ?_, ?_, ?_⟩
    · intro h
      rcases h with h | h <;> simp [parse_url, h]
    · intro h1 h2 h3
      simp [parse_url, h1, h2, h3]
    · intro d hd
      simp only [parse_url] at hd
      split at hd
      · simp at hd
      · split at hd
        · simp at hd
        · split at hd
          · simp at hd
          · rename_i after heq
            split at hd
            · simp at hd
            · rename_i hdigit
              simp only [Except.ok.injEq] at hd
              subst hd
              have hv : pyIsDigit ((pySplit after "/").headD "") = true := by
                revert hdigit
                cases pyIsDigit ((pySplit after "/").headD "") <;> simp
              exact ⟨hv, rfl, rfl, rfl, rfl, rfl⟩
    · intro e he
      simp only [parse_url] at he
      split at he
      · simp only [Except.error.injEq] at he
        exact Or.inl he.symm
      · split at he
        · simp only [Except.error.injEq] at he
          exact Or.inr (Or.inl he.symm)
        · split at he
          · simp only [Except.error.injEq] at he
            exact Or.inr (Or.inr (Or.inl he.symm))
          · split at he
            · simp only [Except.error.injEq] at he
              exact Or.inr (Or.inr (Or.inr ⟨_, he.symm⟩))
            · simp at he
  · exact extract_first_occurrence

/-- Witness for C7 at a concrete rejected scheme and a duplicated query key. -/
theorem url_resolution_typed_witness :
    parse_url "ftp://civitai.com/x" = .error ("Invalid domain in URL: " ++ "ftp://civitai.com/x")
    ∧ extract_options (parse_qs "type=A&type=B") "type" = some "A" :=
  ⟨(url_resolution_typed.1 "ftp://civitai.com/x").1 (Or.inl (by decide)),
   (url_resolution_typed.2 "type=A&type=B" "type").trans (by decide)⟩

/-! ## Sanitizer lemmas -/

theorem getLast?_mem_self {α : Type} : ∀ {l : List α} {a : α}, l.getLast? = some a → a ∈ l := by
  intro l
  induction l with
  | nil => intro a h; simp [List.getLast?] at h
  | cons x t ih =>
    intro a h
    cases t with
    | nil =>
      simp [List.getLast?] at h
      simp [h]
    | cons y u =>
      rw [List.getLast?_cons_cons] at h
      exact List.mem_cons_of_mem x (ih h)

theorem digits_are_digits : ∀ (fuel n : Nat), ∀ c ∈ natDigitsAux fuel n,
    c ∈ "0123456789".data := by
  intro fuel
  induction fuel with
  | zero => intro n c hc; simp [natDigitsAux] at hc
  | succ fuel ih =>
    intro n c hc
    unfold natDigitsAux at hc
    by_cases h : n < 10
    · rw [if_pos h] at hc
      simp only [List.mem_singleton] at hc
      subst hc
      interval_cases n <;> decide
    · rw [if_neg h] at hc
      rcases List.mem_append.mp hc with h1 | h1
      · exact ih (n / 10) c h1
      · simp only [List.mem_singleton] at h1
        subst h1
        have hm : n % 10 < 10 := Nat.mod_lt _ (by decide)
        generalize hk : n % 10 = k at hm ⊢
        interval_cases k <;> decide

theorem digits_ne_nil (n : Nat) : natDigitsAux (n + 1) n ≠ [] := by
  unfold natDigitsAux
  by_cases h : n < 10
  · simp [h]
  · simp [h]

theorem digit_char_clean : ∀ c ∈ "0123456789".data, badChar c = false ∧ wsChar c = false := by
  intro c hc
  fin_cases hc <;> exact ⟨rfl, rfl⟩

theorem reSubBad_clean (l : List Char) : ∀ c ∈ reSubBad l, badChar c = false := by
  intro c hc
  obtain ⟨a, _, ha⟩ := List.mem_map.mp hc
  by_cases hb : badChar a = true
  · rw [if_pos hb] at ha
    rw [← ha]
    decide
  · rw [if_neg hb] at ha
    rw [← ha]
    exact Bool.not_eq_true _ ▸ hb

theorem pyStrip_nil_all_ws {l : List Char} (h : pyStrip l = []) :
    ∀ c ∈ l, wsChar c = true := by
  intro c hc
  unfold pyStrip at h
  rw [List.reverse_eq_nil_iff, List.dropWhile_eq_nil_iff] at h
  rcases List.mem_append.mp
      ((List.takeWhile_append_dropWhile wsChar l).symm ▸ hc) with h1 | h1
  · exact List.mem_takeWhile_imp h1
  · exact h c (List.mem_reverse.mpr h1)

theorem isEmpty_false_of_ne_nil {l : List Char} (h : l ≠ []) : l.isEmpty = false := by
  cases l with
  | nil => exact absurd rfl h
  | cons a t => rfl

theorem splitSlash_no_slash {l : List Char} (h : ∀ c ∈ l, (c == '/') = false) :
    splitSlash l = [l] := by
  induction l with
  | nil => rfl
  | cons c t ih =>
    have hc : (c == '/') = false := h c (List.mem_cons_self c t)
    have ht := ih (fun x hx => h x (List.mem_cons_of_mem c hx))
    simp [splitSlash, hc, ht]

theorem pathName_no_slash {l : List Char} (h : ∀ c ∈ l, (c == '/') = false)
    (hne : l ≠ []) (hdot : l ≠ ['.']) : pathName l = l := by
  unfold pathName
  rw [splitSlash_no_slash h]
  have hpred : (!l.isEmpty && !(l == ['.'])) = true := by
    simp [isEmpty_false_of_ne_nil hne, beq_eq_false_iff_ne.mpr hdot]
  simp [List.filter, hpred]

theorem pathName_ne_dot (l : List Char) : pathName l ≠ ['.'] := by
  unfold pathName
  cases hx : ((splitSlash l).filter (fun p => !p.isEmpty && !(p == ['.']))).getLast? with
  | none => simp
  | some q =>
    have hq := getLast?_mem_self hx
    have := (List.mem_filter.mp hq).2
    simp only [Bool.and_eq_true, Bool.not_eq_true'] at this
    simp only [Option.getD_some]
    exact beq_eq_false_iff_ne.mp this.2

theorem reSubBad_eq_dot {l : List Char} (h : reSubBad l = ['.']) : l = ['.'] := by
  cases l with
  | nil => simp [reSubBad] at h
  | cons a t =>
    cases t with
    | nil =>
      simp only [reSubBad, List.map_cons, List.map_nil, List.cons.injEq, and_true] at h
      by_cases hb : badChar a = true
      · rw [if_pos hb] at h
        exact absurd h (by decide)
      · rw [if_neg hb] at h
        rw [h]
    | cons b u =>
      have := congrArg List.length h
      simp [reSubBad] at this

theorem reSubBad_id_of_clean {l : List Char} (h : ∀ c ∈ l, badChar c = false) :
    reSubBad l = l := by
  unfold reSubBad
  rw [List.map_congr_left (fun c hc => (by simp [h c hc] :
    (fun c => if badChar c then '_' else c) c = (fun c => c) c))]
  exact List.map_id' l

theorem clean_no_slash {l : List Char} (h : ∀ c ∈ l, badChar c = false) :
    ∀ c ∈ l, (c == '/') = false := by
  intro c hc
  have := h c hc
  by_cases he : c = '/'
  · subst he
    exact absurd this (by decide)
  · exact beq_eq_false_iff_ne.mpr he

theorem fallback_name_data (now : Nat) :
    (fallback_name now).data = "civitai_download_".data ++ natDigitsAux (now + 1) now := by
  rw [fallback_name, String.data_append]
  rfl

theorem fallback_name_clean (now : Nat) : ∀ c ∈ (fallback_name now).data,
    badChar c = false := by
  intro c hc
  rw [fallback_name_data] at hc
  rcases List.mem_append.mp hc with h1 | h1
  · fin_cases h1 <;> rfl
  · exact (digit_char_clean c (digits_are_digits _ _ c h1)).1

/-- The key invariant of `sanitize_filename` on a nonempty input with no
default name: the result is `some name` where `name` is nonempty, is not
the special path component `.`, contains no character of the sanitization
class, and does not strip to the empty string. -/
theorem sanitize_some_props (s : String) (now : Nat) (hs : s ≠ "") :
    ∃ name : String, sanitize_filename (some s) none now = some name ∧
      name.data ≠ [] ∧ name.data ≠ ['.'] ∧ (∀ c ∈ name.data, badChar c = false) ∧
      pyStrip name.data ≠ [] := by
  have hbeq : (s == "") = false := beq_eq_false_iff_ne.mpr hs
  unfold sanitize_filename
  simp only [hbeq, Bool.false_eq_true, if_false, pyTruthy]
  by_cases hstrip : (pyStrip (reSubBad (pathName s.data))).isEmpty = true
  · rw [if_pos hstrip]
    refine ⟨fallback_name now, rfl, ?_, ?_, fallback_name_clean now, ?_⟩
    · rw [fallback_name_data]
      simp
    · rw [fallback_name_data]
      intro h
      have := congrArg List.length h
      simp at this
    · intro h
      have hall := pyStrip_nil_all_ws h
      have hc : 'c' ∈ (fallback_name now).data := by
        rw [fallback_name_data]
        exact List.mem_append.mpr (Or.inl (by decide))
      exact absurd (hall 'c' hc) (by decide)
  · rw [if_neg hstrip]
    rw [Bool.not_eq_true, List.isEmpty_eq_false] at hstrip
    refine ⟨String.mk (reSubBad (pathName s.data)), rfl, ?_, ?_,
      reSubBad_clean _, hstrip⟩
    · intro h
      rw [show (String.mk (reSubBad (pathName s.data))).data = reSubBad (pathName s.data)
          from rfl] at h
      rw [h] at hstrip
      exact hstrip rfl
    · intro h
      rw [show (String.mk (reSubBad (pathName s.data))).data = reSubBad (pathName s.data)
          from rfl] at h
      exact pathName_ne_dot s.data (reSubBad_eq_dot h)

/-- C8 counterexample: the empty string input short-circuits through the
`if not header_filename` guard and returns the default name, which is
`None` when absent — not a non-empty sanitized name and not the timestamp
fallback. -/
theorem sanitize_empty_input_is_none : sanitize_filename (some "") none 0 = none := rfl

/-- C8 amended: for every nonempty input (with no default name, as the
transfer executor calls it) the sanitizer returns a nonempty name free of
every character of the class `<>:"/\|?*` and of the C0 control characters
`\x00`-`\x1f` (hence free of path separators); when sanitization strips to
nothing, the result is exactly the `civitai_download_<timestamp>` fallback.
An empty (or `None`) input instead returns the default name, `None` when
absent. -/
theorem sanitize_nonempty_input_safe :
    (∀ (s : String) (now : Nat), s ≠ "" →
      ∃ name : String, sanitize_filename (some s) none now = some name ∧ name ≠ "" ∧
        ∀ c ∈ name.data, badChar c = false)
  ∧ (∀ (s : String) (now : Nat), s ≠ "" →
      (pyStrip (reSubBad (pathName s.data))).isEmpty = true →
      sanitize_filename (some s) none now = some (fallback_name now)) := by
  constructor
  · intro s now hs
    obtain ⟨name, h1, h2, h3, h4, h5⟩ := sanitize_some_props s now hs
    exact ⟨name, h1, fun e => h2 (by rw [e]), h4⟩
  · intro s now hs hstrip
    have hbeq : (s == "") = false := beq_eq_false_iff_ne.mpr hs
    unfold sanitize_filename
    simp [hbeq, hstrip, pyTruthy]

/-- Witness for the amended theorem of C8: a traversal path and an
all-whitespace name. -/
theorem sanitize_nonempty_input_safe_witness :
    (∃ name : String, sanitize_filename (some "../../etc/passwd") none 5 = some name ∧
       name ≠ "" ∧ ∀ c ∈ name.data, badChar c = false)
    ∧ sanitize_filename (some " ") none 5 = some (fallback_name 5) :=
  ⟨sanitize_nonempty_input_safe.1 "../../etc/passwd" 5 (by decide),
   sanitize_nonempty_input_safe.2 " " 5 (by decide) (by decide)⟩

/-- C9: the sanitizer is idempotent — applying it twice (with no default
name, as the transfer executor does, and a fixed clock) equals applying it
once, for every input including `None` and the empty string. -/
theorem sanitize_idempotent :
    ∀ (x : Option String) (t : Nat),
      sanitize_filename (sanitize_filename x none t) none t = sanitize_filename x none t := by
  intro x t
  cases x with
  | none => rfl
  | some s =>
    by_cases hs : s = ""
    · subst hs
      rfl
    · obtain ⟨name, h1, h2, h3, h4, h5⟩ := sanitize_some_props s t hs
      rw [h1]
      have hbeq : (name == "") = false := beq_eq_false_iff_ne.mpr (fun e => h2 (by rw [e]))
      have hslash := clean_no_slash h4
      have hpath : pathName name.data = name.data := pathName_no_slash hslash h2 h3
      have hsub : reSubBad name.data = name.data := reSubBad_id_of_clean h4
      have hempty : (pyStrip (reSubBad (pathName name.data))).isEmpty = false := by
        rw [hpath, hsub]
        exact isEmpty_false_of_ne_nil h5
      unfold sanitize_filename
      simp only [hbeq, Bool.false_eq_true, if_false, hempty]
      rw [hpath, hsub]

/-- C10: the synthesized download URL for a civitai-source AIR is exactly
the base endpoint plus the resource id — the version when present and
truthy, otherwise the id — with no query parameters; a non-civitai source
or an absent/empty resource id raises; the ecosystem, kind and format
fields never influence the result. -/
theorem build_url_exact :
    ∀ (air : AirDict),
      (air.source ≠ "civitai" →
        build_civitai_download_url air =
          .error ("Unsupported source for download: " ++ air.source))
    ∧ (air.source = "civitai" → ∀ v, air.version = some v → v ≠ "" →
        build_civitai_download_url air =
          .ok ("https://civitai.com/api/download/models/" ++ v))
    ∧ (air.source = "civitai" → (air.version = none ∨ air.version = some "") →
        air.id ≠ "" →
        build_civitai_download_url air =
          .ok ("https://civitai.com/api/download/models/" ++ air.id))
    ∧ (air.source = "civitai" → (air.version = none ∨ air.version = some "") →
        air.id = "" →
        build_civitai_download_url air = .error "No resource ID or version found in AIR.")
    ∧ (∀ eco ty fmt, build_civitai_download_url air =
        build_civitai_download_url ⟨eco, ty, air.source, air.id, air.version, fmt⟩) := by
  intro air
  refine ⟨?_, ?_, ?_, ?_, ?_⟩
  · intro h
    simp [build_civitai_download_url, beq_eq_false_iff_ne.mpr h]
  · intro hsrc v hv hne
    simp [build_civitai_download_url, hsrc, pyOrStr, pyTruthy, hv,
      beq_eq_false_iff_ne.mpr hne]
  · intro hsrc hver hid
    rcases hver with hv | hv <;>
      simp [build_civitai_download_url, hsrc, pyOrStr, pyTruthy, hv,
        beq_eq_false_iff_ne.mpr hid]
  · intro hsrc hver hid
    rcases hver with hv | hv <;>
      simp [build_civitai_download_url, hsrc, pyOrStr, pyTruthy, hv, hid]
  · intro eco ty fmt
    rfl

/-- Witness for C10: the documented AIR example synthesizes the version URL. -/
theorem build_url_exact_witness :
    build_civitai_download_url ⟨"flux1", "lora", "civitai", "667004", some "746484", none⟩ =
      .ok ("https://civitai.com/api/download/models/" ++ "746484") :=
  (build_url_exact ⟨"flux1", "lora", "civitai", "667004", some "746484", none⟩).2.1
    rfl "746484" rfl (by decide)

/-- Environment fixture for the run model: metadata fetches succeed with an
empty file list and every download GET is answered with a 403 response. -/
def envDenied : Env where
  fetch := fun _ => .ok ⟨some [], none⟩
  response := fun u => ⟨403, some "application/octet-stream", none, u, []⟩

/-- C3 counterexample: a malformed AIR as the first reference aborts the
whole run before the second reference is processed (uncaught `ValueError`),
and a run whose only download fails still exits 0 — contradicting both
halves of the claim. -/
theorem malformed_air_aborts_run :
    (main_air envDenied ["notanair", "urn:air:flux1:lora:civitai:667004@746484"]
        none none false false "models" 0 = .error "Invalid AIR format: notanair")
  ∧ (main_air envDenied ["urn:air:flux1:lora:civitai:667004@746484"]
        none none false false "models" 0 =
      .ok [("https://civitai.com/api/download/models/746484",
            .error "Access denied for https://civitai.com/api/download/models/746484: 403")])
  ∧ exit_code (main_air envDenied ["urn:air:flux1:lora:civitai:667004@746484"]
        none none false false "models" 0) = 0 := ⟨rfl, rfl, rfl⟩

/-- C3 amended: failures split by phase.  A parse failure in the resolution
loop aborts immediately (no later reference is processed); once resolution
succeeds, the download loop attempts every validated reference — failures
are caught per reference and the loop continues — and the process exits 0
regardless of download failures; in URL mode a reference failing the
scheme/domain pre-check is skipped and processing continues. -/
theorem download_failures_do_not_abort :
    (∀ (env : Env) (a : String) (rest : List String) (e : String) (md : ModelData)
       (acc : List (String × ModelData)), parse_air a = .error e →
       air_phase_go env (a :: rest) md acc = .error e)
  ∧ (∀ (env : Env) (airs : List String) (size : Option String) (fp : Option Nat)
       (inc force : Bool) (dir : String) (now : Nat) (v : List (String × ModelData)),
       air_phase env airs = .ok v →
       main_air env airs size fp inc force dir now =
         .ok (download_loop env size fp inc force dir now v)
       ∧ exit_code (main_air env airs size fp inc force dir now) = 0
       ∧ (download_loop env size fp inc force dir now v).length = v.length)
  ∧ (∀ (env : Env) (u : String) (rest : List String) (acc : List (String × ModelData)),
       (pyStartsWith "http" u = false ∨ containsSub "civitai.com" u = false) →
       url_phase_go env (u :: rest) acc = url_phase_go env rest acc) := by
  refine ⟨?_, ?_, ?_⟩
  · intro env a rest e md acc h
    simp only [air_phase_go, h]
    rfl
  · intro env airs size fp inc force dir now v h
    have hm : main_air env airs size fp inc force dir now =
        .ok (download_loop env size fp inc force dir now v) := by
      unfold main_air
      rw [h]
      rfl
    exact ⟨hm, by rw [hm]; rfl, by simp [download_loop]⟩
  · intro env u rest acc h
    rcases h with h | h <;> simp [url_phase_go, h]

/-- Witness for the amended theorem of C3 at concrete references. -/
theorem download_failures_do_not_abort_witness :
    air_phase_go envDenied ["zzz"] emptyModelData [] = .error "Invalid AIR format: zzz"
    ∧ exit_code (main_air envDenied [] none none false false "models" 0) = 0 :=
  ⟨download_failures_do_not_abort.1 envDenied "zzz" [] "Invalid AIR format: zzz"
     emptyModelData [] rfl,
   (download_failures_do_not_abort.2.1 envDenied [] none none false false "models" 0
     [] rfl).2.1⟩

end Civitai
